import Mathlib

/-!
MedAI — verification of the prescription-analysis pipeline

Shallow embedding of the MedAI repository's prescription-analysis and
provenance-recording pipeline:

* `src/lib/blockchain.ts` — the ledger stub (`storeOnBlockchain`,
  `getBlockchainRecord`, `updateOnBlockchain`, `generateHash`) and the
  orchestrator variant exported next to it (`analyzePrescription`,
  `getPrescriptionResults`, `updateBlockchainRecord`,
  `searchPrescriptionByHash`, `getPatientHistory`);
* the graph-aware ledger (`storeOnBlockchain`, `updateOnBlockchain`,
  `getPrescriptionFromHash` with Neo4j hooks);
* the Neo4j adapter (`storePrescriptionInGraph`,
  `getPatientPrescriptionHistory`, `getPrescriptionByHash`,
  `updatePrescriptionInGraph`, `extractMedicationsFromPrescription`);
* `src/lib/actions.ts` — the plain orchestrator;
* `src/lib/ai.ts` — the post-processing of the model response
  (code-fence stripping, trimming, then parse-and-validate).

JavaScript's in-memory objects (`resultsStore`, `blockchainRecords`,
`mockGraphData`) are modelled as insertion-ordered association lists;
`Object.keys`/`Object.values` order for the non-index string keys used here
is insertion order.  Stateful operations are state transformers returning a
`(Except JsError α) × State` pair, so that mutations performed before a
throw are kept, exactly as in the source.  Wall-clock readings
(`Date.now()`, `new Date().toISOString()`) and the random id suffix are
explicit parameters, and the remote generative-model call is an explicit
oracle argument.
-/

/-- The `status` enum of a prescription result (`"valid" | "warning" | "invalid"`). -/
inductive Status where
  | valid
  | warning
  | invalid
deriving DecidableEq, Repr

/-- The `severity` enum of an issue (`"low" | "medium" | "high"`). -/
inductive Severity where
  | low
  | medium
  | high
deriving DecidableEq, Repr

/-- An entry of `issues` in a `PrescriptionResult`. -/
structure Issue where
  title : String
  description : String
  severity : Severity
deriving DecidableEq, Repr

/-- An entry of `suggestions` in a `PrescriptionResult`. -/
structure Suggestion where
  title : String
  description : String
deriving DecidableEq, Repr

/-- The `dataSources` provenance counters. -/
structure DataSources where
  vectorDbEntries : Nat
  searchQueries : Nat
deriving DecidableEq, Repr

/-- The central record of the pipeline (`PrescriptionResult` of `types.ts`).
`issues`/`suggestions` are optional; `historyReference` and `medications`
are the graph-enrichment fields of the Neo4j-aware variant. -/
structure PrescriptionResult where
  id : String
  originalPrescription : String
  status : Status
  issues : Option (List Issue)
  suggestions : Option (List Suggestion)
  dataSources : DataSources
  timestamp : String
  blockchainStatus : String
  lastUpdated : String
  historyReference : Option String := none
  medications : Option (List String) := none
deriving DecidableEq, Repr

/-- The patient data passed alongside a form submission. -/
structure PatientInfo where
  name : String
  age : String
  gender : String
  medications : String := ""
  symptoms : String := ""
deriving DecidableEq, Repr

/-- The validated output of `analyzePrescriptionWithRAG` (plain variant of
`ai.ts`: `status`, `issues`, `suggestions`, `dataSources` are all required
by the zod schema). -/
structure Analysis where
  status : Status
  issues : List Issue
  suggestions : List Suggestion
  dataSources : DataSources
deriving DecidableEq, Repr

/-- The validated output of the graph-aware `analyzePrescriptionWithRAG`,
whose zod schema additionally requires nullable `imageAnalysis` and
`historyReference` fields. -/
structure AnalysisFull where
  status : Status
  issues : List Issue
  suggestions : List Suggestion
  dataSources : DataSources
  imageAnalysis : Option String
  historyReference : Option String
deriving DecidableEq, Repr

/-- The `data` sub-object of a ledger record. -/
structure LedgerData where
  status : Status
  issuesCount : Nat
  suggestionsCount : Nat
deriving DecidableEq, Repr

/-- A record of the mock blockchain store (`blockchainRecords[id]`). -/
structure LedgerRecord where
  id : String
  timestamp : String
  status : Status
  hash : String
  data : LedgerData
deriving DecidableEq, Repr

/-- A `Patient` node of the graph (`MERGE`d by the name/age/gender triple;
`age` is `Number.parseInt` of the form field, `none` standing for `NaN`). -/
structure PatientNode where
  name : String
  age : Option Int
  gender : String
deriving DecidableEq, Repr

/-- A `Prescription` node of the graph. -/
structure RxNode where
  id : String
  blockchainHash : String
  originalPrescription : String
  status : Status
  timestamp : String
  lastUpdated : String
deriving DecidableEq, Repr

/-- The property graph written by the Neo4j adapter.  `Issue` and
`Suggestion` nodes are `CREATE`d fresh on every write, so they carry a
node identifier (`nextId`) besides their properties; `collect(distinct _)`
in the Cypher queries deduplicates by node, i.e. by that identifier. -/
structure GraphDB where
  patients : List PatientNode
  prescriptions : List RxNode
  received : List (PatientNode × String)
  includes : List (String × String)
  hasIssue : List (String × (Nat × Issue))
  hasSuggestion : List (String × (Nat × Suggestion))
  nextId : Nat
deriving DecidableEq, Repr

/-- An entry of the in-memory fallback store of the Neo4j adapter
(`mockGraphData[blockchainHash] = { result, patientInfo }`). -/
structure MockEntry where
  result : PrescriptionResult
  patientInfo : PatientInfo
deriving DecidableEq, Repr

/-- The whole in-memory state of the process: the orchestrator's
`resultsStore`, the ledger's `blockchainRecords`, and the Neo4j module's
driver handle (`connected`), initialization flag, graph contents, and
fallback map `mockGraphData`. -/
structure SysState where
  results : List (String × PrescriptionResult)
  chain : List (String × LedgerRecord)
  neo4jInitialized : Bool
  connected : Bool
  graph : GraphDB
  mockGraph : List (String × MockEntry)
deriving DecidableEq, Repr

/-- The errors thrown across the pipeline, one constructor per distinct
`throw new Error(...)` / `reject(new Error(...))` message in the source. -/
inductive JsError where
  /-- Thrown as `"Record not found"` (orchestrator, local store lookup). -/
  | recordNotFound
  /-- Thrown as `"Record not found on blockchain"` (ledger stub). -/
  | ledgerNotFound
  /-- Thrown as `"Failed to analyze prescription"` (orchestrator catch-all). -/
  | analysisFailed
  /-- Thrown as `"Failed to update blockchain record"` (orchestrator catch-all). -/
  | updateFailed
  /-- Thrown as `"Invalid AI response format"` (AI invoker schema failure). -/
  | aiInvalid
deriving DecidableEq, Repr

section AssocList

variable {α : Type _}

/-- Reading `obj[k]` on a JS object modelled as an insertion-ordered association
list (keys are unique in any reachable state, so the first match is the
entry). -/
def alGet (k : String) (l : List (String × α)) : Option α :=
  (l.find? (fun e => e.1 = k)).map (fun e => e.2)

/-- Writing `obj[k] = v`: update in place when the key exists, append otherwise
(JS objects keep insertion order for the string keys used here). -/
def alSet (k : String) (v : α) (l : List (String × α)) : List (String × α) :=
  if l.any (fun e => e.1 = k) then
    l.map (fun e => if e.1 = k then (k, v) else e)
  else
    l ++ [(k, v)]

/-- In-place mutation of the entry at `k` (`obj[k].field = ...`). -/
def alModify (k : String) (f : α → α) (l : List (String × α)) :
    List (String × α) :=
  l.map (fun e => if e.1 = k then (e.1, f e.2) else e)

@[simp] theorem alGet_nil (k : String) : alGet k ([] : List (String × α)) = none := rfl

theorem alGet_cons_of_eq (k : String) (e : String × α) (t : List (String × α))
    (he : e.1 = k) : alGet k (e :: t) = some e.2 := by
  unfold alGet
  rw [List.find?_cons_of_pos _ (by simp [he])]
  rfl

theorem alGet_cons_of_ne (k : String) (e : String × α) (t : List (String × α))
    (he : ¬ e.1 = k) : alGet k (e :: t) = alGet k t := by
  unfold alGet
  rw [List.find?_cons_of_neg _ (by simp [he])]

theorem alGet_append_right (k : String) (l : List (String × α)) (v : α)
    (h : alGet k l = none) : alGet k (l ++ [(k, v)]) = some v := by
  induction l with
  | nil => simp [alGet, List.find?]
  | cons e t ih =>
    by_cases he : e.1 = k
    · rw [alGet_cons_of_eq k e t he] at h
      exact absurd h (by simp)
    · rw [alGet_cons_of_ne k e t he] at h
      rw [List.cons_append, alGet_cons_of_ne k e _ he]
      exact ih h

theorem alSet_of_not_mem (k : String) (v : α) (l : List (String × α))
    (h : alGet k l = none) : alSet k v l = l ++ [(k, v)] := by
  have hany : l.any (fun e => e.1 = k) = false := by
    induction l with
    | nil => rfl
    | cons e t ih =>
      by_cases he : e.1 = k
      · rw [alGet_cons_of_eq k e t he] at h
        exact absurd h (by simp)
      · rw [alGet_cons_of_ne k e t he] at h
        simp [List.any_cons, he, ih h]
  simp [alSet, hany]

end AssocList

section StringModel

/-- The whitespace characters recognised by JS `String.prototype.trim`
and by `\s` in the character class of the extraction regex (ASCII part:
space, tab, newline, carriage return, vertical tab, form feed). -/
def isWs (c : Char) : Bool :=
  c = ' ' || c = '\t' || c = '\n' || c = '\r' ||
  c = Char.ofNat 11 || c = Char.ofNat 12

/-- Leading-whitespace removal (first half of `.trim()`). -/
def trimLeftChars (l : List Char) : List Char :=
  l.dropWhile isWs

/-- Trailing-whitespace removal (second half of `.trim()`). -/
def trimRightChars (l : List Char) : List Char :=
  (l.reverse.dropWhile isWs).reverse

/-- JS `String.prototype.trim` on a character list. -/
def trimChars (l : List Char) : List Char :=
  trimRightChars (trimLeftChars l)

/-- JS `str.split` on the regex class of comma and newline: split on every single comma or newline, keeping
empty pieces (they are dropped later by the `length > 0` filter). -/
def splitCommaNl : List Char → List (List Char)
  | [] => [[]]
  | c :: t =>
    let r := splitCommaNl t
    if c = ',' || c = '\n' then [] :: r
    else
      match r with
      | h :: t' => (c :: h) :: t'
      | [] => [[c]]

/-- JS `ToInt32`: wrap an integer into the signed 32-bit range. -/
def toInt32 (x : Int) : Int :=
  (x + 2 ^ 31) % 2 ^ 32 - 2 ^ 31

/-- One step of the checksum fold:
`hash = (hash << 5) - hash + charCode; hash = hash & hash`. -/
def hashStep (h : Int) (c : Nat) : Int :=
  toInt32 (toInt32 (h * 32) - h + c)

/-- The 32-bit accumulator of `generateHash`, folded over the serialized
text (`str.charCodeAt(i)` is the code point for the strings at hand). -/
def hashChars (s : List Char) : Int :=
  s.foldl (fun h c => hashStep h c.toNat) 0

/-- JS `padStart(8, "0")`. -/
def padStartChars (n : Nat) (c : Char) (l : List Char) : List Char :=
  List.replicate (n - l.length) c ++ l

/-- JS `Math.abs(hash).toString(16).padStart(8, "0")` applied to the folded
accumulator of a serialized record. -/
def hashHex (s : String) : String :=
  (padStartChars 8 '0' (Nat.toDigits 16 (hashChars s.data).natAbs)).asString

end StringModel

section Serialize

/-- Model of `JSON.stringify` on strings: quoted, with the escapes that
matter for the fields at hand. -/
def jsonQuote (s : String) : String :=
  "\"" ++ String.mk (s.data.foldr (fun c acc =>
    if c = '"' then '\\' :: '"' :: acc
    else if c = '\\' then '\\' :: '\\' :: acc
    else if c = '\n' then '\\' :: 'n' :: acc
    else c :: acc) []) ++ "\""

/-- The literal text of a `status` value. -/
def statusStr : Status → String
  | .valid => "valid"
  | .warning => "warning"
  | .invalid => "invalid"

/-- The literal text of a `severity` value. -/
def severityStr : Severity → String
  | .low => "low"
  | .medium => "medium"
  | .high => "high"

/-- Model of `JSON.stringify` of one issue (object-literal key order). -/
def serializeIssue (i : Issue) : String :=
  "\x7b\"title\":" ++ jsonQuote i.title ++
  ",\"description\":" ++ jsonQuote i.description ++
  ",\"severity\":" ++ jsonQuote (severityStr i.severity) ++ "\x7d"

/-- Model of `JSON.stringify` of one suggestion. -/
def serializeSuggestion (s : Suggestion) : String :=
  "\x7b\"title\":" ++ jsonQuote s.title ++
  ",\"description\":" ++ jsonQuote s.description ++ "\x7d"

/-- Model of `JSON.stringify` of a list, comma-separated in brackets. -/
def serializeList (f : α → String) (l : List α) : String :=
  "[" ++ String.intercalate "," (l.map f) ++ "]"

/-- Model of `JSON.stringify(x)` for an optional string field (`null` when the
value is absent). -/
def serializeOptStr : Option String → String
  | none => "null"
  | some s => jsonQuote s

/-- Model of `JSON.stringify(data)` for the record handed to
`generateHash`: the canonical text form of a `PrescriptionResult`, keys in
object-literal insertion order; `undefined` optional fields are omitted,
exactly as `JSON.stringify` drops them. -/
def serializeResult (r : PrescriptionResult) : String :=
  "\x7b\"id\":" ++ jsonQuote r.id ++
  ",\"originalPrescription\":" ++ jsonQuote r.originalPrescription ++
  ",\"status\":" ++ jsonQuote (statusStr r.status) ++
  (match r.issues with
   | none => ""
   | some l => ",\"issues\":" ++ serializeList serializeIssue l) ++
  (match r.suggestions with
   | none => ""
   | some l => ",\"suggestions\":" ++ serializeList serializeSuggestion l) ++
  ",\"dataSources\":\x7b\"vectorDbEntries\":" ++ toString r.dataSources.vectorDbEntries ++
  ",\"searchQueries\":" ++ toString r.dataSources.searchQueries ++ "\x7d" ++
  ",\"timestamp\":" ++ jsonQuote r.timestamp ++
  ",\"blockchainStatus\":" ++ jsonQuote r.blockchainStatus ++
  ",\"lastUpdated\":" ++ jsonQuote r.lastUpdated ++
  (match r.historyReference with
   | none => ""
   | some s => ",\"historyReference\":" ++ jsonQuote s) ++
  (match r.medications with
   | none => ""
   | some l => ",\"medications\":" ++ serializeList jsonQuote l) ++
  "\x7d"

/-- Model of `generateHash(data)` of `blockchain.ts`: serialize the record, fold
`hash = (hash << 5) - hash + charCode` over its characters in a signed
32-bit accumulator, take the absolute value, and render it as 8-digit
zero-padded hexadecimal. -/
def generateHash (r : PrescriptionResult) : String :=
  hashHex (serializeResult r)

end Serialize

namespace Neo4j

/-- The class `[A-Za-z]` of the extraction regex. -/
def isAsciiAlpha (c : Char) : Bool :=
  ('A' ≤ c && c ≤ 'Z') || ('a' ≤ c && c ≤ 'z')

/-- The character class `[A-Za-z\s]` of `^([A-Za-z\s]+)`. -/
def isAlphaSpace (c : Char) : Bool :=
  isAsciiAlpha c || isWs c

/-- Model of `extractMedicationsFromPrescription` of the Neo4j adapter: split the
free text on `/[,\n]/`, trim each piece, match `^([A-Za-z\s]+)` against
the trimmed piece — on a match keep `match[0].trim()`, otherwise keep the
trimmed piece itself — and drop entries of length 0. -/
def extractMedicationsFromPrescription (prescription : String) : List String :=
  (((splitCommaNl prescription.data).map (fun med =>
      let t := trimChars med
      let lead := t.takeWhile isAlphaSpace
      if lead = [] then t else trimChars lead)).filter
    (fun med => med.length > 0)).map List.asString

/-- Model of `Number.parseInt` on the `age` form field: skip leading whitespace,
optional sign, then the leading digit run; `none` models `NaN`. -/
def parseIntJs (s : String) : Option Int :=
  let t := trimChars s.data
  let signAndRest : Int × List Char :=
    match t with
    | '-' :: r => (-1, r)
    | '+' :: r => (1, r)
    | r => (1, r)
  let digs := signAndRest.2.takeWhile (fun c => '0' ≤ c && c ≤ '9')
  if digs = [] then none
  else some (signAndRest.1 * digs.foldl (fun a c => 10 * a + ((c.toNat : Int) - 48)) 0)

/-- Cypher `MERGE (p:Patient)` keyed by the name, age and gender triple: create the node unless a node
with the same key triple already exists. -/
def mergePatient (g : GraphDB) (p : PatientNode) : GraphDB :=
  if g.patients.contains p then g else { g with patients := g.patients ++ [p] }

/-- Model of `storePrescriptionInGraph(result, patientInfo, blockchainHash)`.
Driver absent: store `{ result, patientInfo }` in the fallback map keyed
by the hash.  Driver present: merge the patient node, create the
prescription node and its `RECEIVED` edge, `MERGE` medication nodes (keyed
by name) with `INCLUDES` edges, and create fresh `Issue`/`Suggestion`
nodes (numbered by `nextId`) with their edges; all in one transaction. -/
def storePrescriptionInGraph (r : PrescriptionResult) (pinfo : PatientInfo)
    (hash : String) (st : SysState) : SysState :=
  if st.connected then
    let meds := extractMedicationsFromPrescription r.originalPrescription
    let pnode : PatientNode :=
      { name := pinfo.name, age := parseIntJs pinfo.age, gender := pinfo.gender }
    let rx : RxNode :=
      { id := r.id, blockchainHash := hash,
        originalPrescription := r.originalPrescription, status := r.status,
        timestamp := r.timestamp, lastUpdated := r.lastUpdated }
    let g := mergePatient st.graph pnode
    let g := { g with prescriptions := g.prescriptions ++ [rx],
                      received := g.received ++ [(pnode, r.id)],
                      includes := g.includes ++ meds.map (fun m => (r.id, m)) }
    let g := (r.issues.getD []).foldl (fun (acc : GraphDB) i =>
      { acc with hasIssue := acc.hasIssue ++ [(r.id, (acc.nextId, i))],
                 nextId := acc.nextId + 1 }) g
    let g := (r.suggestions.getD []).foldl (fun (acc : GraphDB) s =>
      { acc with hasSuggestion := acc.hasSuggestion ++ [(r.id, (acc.nextId, s))],
                 nextId := acc.nextId + 1 }) g
    { st with graph := g }
  else
    { st with mockGraph := alSet hash ⟨r, pinfo⟩ st.mockGraph }

/-- Cypher `ORDER BY rx.timestamp DESC` (string comparison, descending). -/
def tsDesc (a b : RxNode) : Bool :=
  decide (b.timestamp ≤ a.timestamp)

/-- Cypher match of a `RECEIVED` edge from a patient with the given name: does some
`RECEIVED` edge from a patient with the given name reach `rx`? -/
def rxMatches (g : GraphDB) (name : String) (rx : RxNode) : Bool :=
  g.received.any (fun e => e.1.name = name && e.2 = rx.id)

/-- Cypher `collect(distinct i)` over the `HAS_ISSUE` edges: the issue nodes
attached to the prescription, deduplicated by node. -/
def collectIssues (g : GraphDB) (rxId : String) : List Issue :=
  ((((g.hasIssue.filter (fun e => e.1 = rxId)).map (fun e => e.2)).dedup).map
    (fun n => n.2))

/-- Cypher `collect(distinct s)` over the `HAS_SUGGESTION` edges. -/
def collectSuggestions (g : GraphDB) (rxId : String) : List Suggestion :=
  ((((g.hasSuggestion.filter (fun e => e.1 = rxId)).map (fun e => e.2)).dedup).map
    (fun n => n.2))

/-- Cypher `collect(distinct m.name)` over the `INCLUDES` edges. -/
def collectMeds (g : GraphDB) (rxId : String) : List String :=
  ((g.includes.filter (fun e => e.1 = rxId)).map (fun e => e.2)).dedup

/-- The record built from one returned row (`rx` plus its aggregated
issues, suggestions and medication names; empty aggregates become
`undefined`, `dataSources` is zeroed, `blockchainStatus` is reported as
`"Recorded"`). -/
def rxToResult (g : GraphDB) (rx : RxNode) : PrescriptionResult :=
  let issues := collectIssues g rx.id
  let suggestions := collectSuggestions g rx.id
  { id := rx.id, originalPrescription := rx.originalPrescription,
    status := rx.status,
    issues := if issues.length > 0 then some issues else none,
    suggestions := if suggestions.length > 0 then some suggestions else none,
    dataSources := ⟨0, 0⟩, timestamp := rx.timestamp,
    blockchainStatus := "Recorded", lastUpdated := rx.lastUpdated,
    historyReference := none, medications := some (collectMeds g rx.id) }

/-- The connected-mode history query: prescriptions `RECEIVED` by a
patient with the given name, ordered by `timestamp` descending, one
aggregated row per prescription. -/
def historyQuery (g : GraphDB) (name : String) : List PrescriptionResult :=
  ((g.prescriptions.filter (rxMatches g name)).mergeSort tsDesc).map (rxToResult g)

/-- Model of `getPatientPrescriptionHistory(patientInfo)`: the connected-mode query
when the driver is available, otherwise
`Object.values(mockGraphData).map((data) => data.result)`. -/
def getPatientPrescriptionHistory (st : SysState) (pinfo : PatientInfo) :
    List PrescriptionResult :=
  if st.connected then historyQuery st.graph pinfo.name
  else st.mockGraph.map (fun e => e.2.result)

/-- Model of `getPrescriptionByHash(blockchainHash)`: first prescription node with
that hash, aggregated as in the history query; fallback map lookup when
the driver is absent. -/
def getPrescriptionByHash (st : SysState) (h : String) : Option PrescriptionResult :=
  if st.connected then
    match st.graph.prescriptions.find? (fun rx => rx.blockchainHash = h) with
    | none => none
    | some rx => some (rxToResult st.graph rx)
  else (alGet h st.mockGraph).map (fun e => e.result)

/-- Model of `updatePrescriptionInGraph(result, blockchainHash)`: set status,
lastUpdated and hash on the prescription node matched by id (a no-op when
nothing matches); in fallback mode overwrite the stored result if the
hash key is present. -/
def updatePrescriptionInGraph (r : PrescriptionResult) (hash : String)
    (st : SysState) : SysState :=
  if st.connected then
    let g := st.graph
    let prescriptions := g.prescriptions.map (fun rx =>
      if rx.id = r.id then
        { rx with
          status := r.status,
          lastUpdated := r.lastUpdated,
          blockchainHash := hash }
      else rx)
    { st with graph := { g with prescriptions := prescriptions } }
  else
    match alGet hash st.mockGraph with
    | some _ =>
      { st with mockGraph := alModify hash (fun e => { e with result := r }) st.mockGraph }
    | none => st

end Neo4j

namespace Blockchain

/-- The ledger record derived from a result at write time
(`issuesCount`/`suggestionsCount` via `data.issues?.length || 0`). -/
def mkLedgerRecord (r : PrescriptionResult) : LedgerRecord :=
  { id := r.id, timestamp := r.timestamp, status := r.status,
    hash := generateHash r,
    data := { status := r.status,
              issuesCount := (r.issues.getD []).length,
              suggestionsCount := (r.suggestions.getD []).length } }

/-- Model of `storeOnBlockchain(data)` of the plain ledger stub: derive the record,
store it under the result's id, resolve with the id (never fails). -/
def storeOnBlockchain (st : SysState) (r : PrescriptionResult) :
    Except JsError String × SysState :=
  (.ok r.id, { st with chain := alSet r.id (mkLedgerRecord r) st.chain })

/-- Model of `getBlockchainRecord(id)`: resolve the stored record, or reject with
`"Record not found on blockchain"`. -/
def getBlockchainRecord (st : SysState) (id : String) :
    Except JsError LedgerRecord × SysState :=
  match alGet id st.chain with
  | some rec => (.ok rec, st)
  | none => (.error .ledgerNotFound, st)

/-- Model of `updateOnBlockchain(id, data)`: reject with
`"Record not found on blockchain"` when the id is absent; otherwise spread
the old record and overwrite `timestamp` (fresh clock reading), `status`,
`hash` and `data` from the supplied result. -/
def updateOnBlockchain (st : SysState) (id : String) (r : PrescriptionResult)
    (nowIso : String) : Except JsError Unit × SysState :=
  match alGet id st.chain with
  | none => (.error .ledgerNotFound, st)
  | some old =>
    let upd := { old with
      timestamp := nowIso,
      status := r.status,
      hash := generateHash r,
      data := { status := r.status,
                issuesCount := (r.issues.getD []).length,
                suggestionsCount := (r.suggestions.getD []).length } }
    (.ok (), { st with chain := alSet id upd st.chain })

end Blockchain

namespace BlockchainGraph

/-- Model of `ensureNeo4jInitialized()`: on the first call run `initNeo4j`, whose
connection attempt either yields a driver or, on failure, leaves the
driver `null` without throwing; the guard flag is set either way. -/
def ensureNeo4jInitialized (connectOk : Bool) (st : SysState) : SysState :=
  if st.neo4jInitialized then st
  else { st with neo4jInitialized := true, connected := connectOk }

/-- Graph-aware `storeOnBlockchain(data, patientInfo)`: initialize Neo4j
if needed, store the derived ledger record, then store in the graph (any
graph error is swallowed by `.catch`), and resolve with the id. -/
def storeOnBlockchain (connectOk : Bool) (st : SysState)
    (r : PrescriptionResult) (pinfo : PatientInfo) :
    Except JsError String × SysState :=
  let st := ensureNeo4jInitialized connectOk st
  let hash := generateHash r
  let rec' : LedgerRecord :=
    { id := r.id, timestamp := r.timestamp, status := r.status, hash := hash,
      data := { status := r.status,
                issuesCount := (r.issues.getD []).length,
                suggestionsCount := (r.suggestions.getD []).length } }
  let st := { st with chain := alSet r.id rec' st.chain }
  let st := Neo4j.storePrescriptionInGraph r pinfo hash st
  (.ok r.id, st)

/-- Graph-aware `updateOnBlockchain(id, data)`: reject when the id is
absent from the ledger; otherwise overwrite the ledger record and update
the graph node (graph errors swallowed by `.catch`). -/
def updateOnBlockchain (connectOk : Bool) (st : SysState) (id : String)
    (r : PrescriptionResult) (nowIso : String) : Except JsError Unit × SysState :=
  let st := ensureNeo4jInitialized connectOk st
  match alGet id st.chain with
  | none => (.error .ledgerNotFound, st)
  | some old =>
    let hash := generateHash r
    let upd := { old with
      timestamp := nowIso,
      status := r.status,
      hash := hash,
      data := { status := r.status,
                issuesCount := (r.issues.getD []).length,
                suggestionsCount := (r.suggestions.getD []).length } }
    let st := { st with chain := alSet id upd st.chain }
    let st := Neo4j.updatePrescriptionInGraph r hash st
    (.ok (), st)

/-- Model of `getPrescriptionFromHash(hash)`: scan `Object.values(blockchainRecords)`
for a record with that hash; when one exists, look the full data up in the
graph, otherwise resolve with `null`. -/
def getPrescriptionFromHash (connectOk : Bool) (st : SysState) (h : String) :
    Except JsError (Option PrescriptionResult) × SysState :=
  let st := ensureNeo4jInitialized connectOk st
  match st.chain.find? (fun e => e.2.hash = h) with
  | some _ => (.ok (Neo4j.getPrescriptionByHash st h), st)
  | none => (.ok none, st)

end BlockchainGraph

section IdGeneration

/-- Decimal rendering of a natural number (the text `${Date.now()}`
contributes to the template literal). -/
def natDecimalChars (n : Nat) : List Char :=
  if n = 0 then ['0'] else ((Nat.digits 10 n).map Nat.digitChar).reverse

/-- The analysis id
`` `rx-${Date.now()}-${Math.random().toString(36).substring(2, 9)}` ``,
with the clock reading and the random base-36 suffix as explicit inputs. -/
def analysisId (nowMs : Nat) (rand : String) : String :=
  "rx-" ++ (natDecimalChars nowMs).asString ++ "-" ++ rand

end IdGeneration

/-- The fields of the submitted form consumed by the orchestrator. -/
structure FormData where
  name : String
  age : String
  gender : String
  medications : String
  symptoms : String
  prescription : String
deriving DecidableEq, Repr

namespace Actions

/-- The canned demo record returned by `getPrescriptionResults` when the
results store is empty (timestamps are the two fresh clock readings). -/
def mockResult (t1 t2 : String) : PrescriptionResult :=
  { id := "rx-mock-123456",
    originalPrescription := "Lisinopril 10mg once daily, Metformin 500mg twice daily",
    status := .warning,
    issues := some [{ title := "Potential Drug Interaction",
                      description := "Lisinopril and Metformin may interact, causing hypoglycemia in some patients.",
                      severity := .medium }],
    suggestions := some
      [{ title := "Monitor Blood Sugar",
         description := "Regularly monitor blood sugar levels when taking these medications together." },
       { title := "Consider Alternative",
         description := "If hypoglycemia occurs, consider alternative blood pressure medications." }],
    dataSources := ⟨1245, 3⟩,
    timestamp := t1, blockchainStatus := "Recorded", lastUpdated := t2 }

/-- Model of `analyzePrescription(formData)` of `actions.ts`: generate the id,
invoke the AI (its validated outcome `ai` is the oracle input; any failure
is caught and rethrown as `"Failed to analyze prescription"` with nothing
written), assemble the result with `blockchainStatus = "Pending"`, write
it to `resultsStore`, store it on the ledger, then flip the stored
record's `blockchainStatus` to `"Recorded"`. -/
def analyzePrescription (fd : FormData) (nowMs : Nat) (rand : String)
    (tsA tsB : String) (ai : Except JsError Analysis) (st : SysState) :
    Except JsError Unit × SysState :=
  match ai with
  | .error _ => (.error .analysisFailed, st)
  | .ok a =>
    let id := analysisId nowMs rand
    let result : PrescriptionResult :=
      { id := id, originalPrescription := fd.prescription, status := a.status,
        issues := some a.issues, suggestions := some a.suggestions,
        dataSources := a.dataSources, timestamp := tsA,
        blockchainStatus := "Pending", lastUpdated := tsB }
    let st := { st with results := alSet id result st.results }
    let stored := Blockchain.storeOnBlockchain st result
    match stored.1 with
    | .error _ => (.error .analysisFailed, stored.2)
    | .ok _ =>
      let results := alModify id
        (fun r => { r with blockchainStatus := "Recorded" }) stored.2.results
      (.ok (), { stored.2 with results := results })

/-- Model of `getPrescriptionResults()`: the entry under the last key of
`resultsStore`, or the canned demo record when the store is empty.  (The
`mockResult` default on the inner lookup is dead code: the key is taken
from the store itself.) -/
def getPrescriptionResults (t1 t2 : String) (st : SysState) : PrescriptionResult :=
  match (st.results.map (fun e => e.1)).getLast? with
  | none => mockResult t1 t2
  | some k => (alGet k st.results).getD (mockResult t1 t2)

/-- The `try` block of `updateBlockchainRecord(id)`: throw
`"Record not found"` when the id is absent from `resultsStore`, update the
ledger (which may reject), then refresh the local record's `lastUpdated`
and set its `blockchainStatus` to `"Updated"`. -/
def updateBlockchainRecordTry (id : String) (ledgerNow localNow : String)
    (st : SysState) : Except JsError Unit × SysState :=
  match alGet id st.results with
  | none => (.error .recordNotFound, st)
  | some r =>
    let upd := Blockchain.updateOnBlockchain st id r ledgerNow
    match upd.1 with
    | .error e => (.error e, upd.2)
    | .ok _ =>
      let results := alModify id
        (fun r => { r with lastUpdated := localNow, blockchainStatus := "Updated" })
        upd.2.results
      (.ok (), { upd.2 with results := results })

/-- Model of `updateBlockchainRecord(id)`: the `try` block with its `catch`, which
rethrows any failure as `"Failed to update blockchain record"`. -/
def updateBlockchainRecord (id : String) (ledgerNow localNow : String)
    (st : SysState) : Except JsError Unit × SysState :=
  let inner := updateBlockchainRecordTry id ledgerNow localNow st
  match inner.1 with
  | .ok _ => inner
  | .error _ => (.error .updateFailed, inner.2)

end Actions

namespace ActionsGraph

/-- The graph-aware `analyzePrescription(formData)` exported from
`blockchain.ts`'s sibling actions file: it additionally reads the patient
history (feeding the prompt only — no state change) and stores via the
graph-aware ledger.  `connectOk` is the outcome of the lazy Neo4j
connection attempt, `ai` the validated model response. -/
def analyzePrescription (fd : FormData) (nowMs : Nat) (rand : String)
    (tsA tsB : String) (connectOk : Bool) (ai : Except JsError AnalysisFull)
    (st : SysState) : Except JsError Unit × SysState :=
  match ai with
  | .error _ => (.error .analysisFailed, st)
  | .ok a =>
    let id := analysisId nowMs rand
    let result : PrescriptionResult :=
      { id := id, originalPrescription := fd.prescription, status := a.status,
        issues := some a.issues, suggestions := some a.suggestions,
        dataSources := a.dataSources, timestamp := tsA,
        blockchainStatus := "Pending", lastUpdated := tsB,
        historyReference := a.historyReference, medications := none }
    let st := { st with results := alSet id result st.results }
    let pinfo : PatientInfo :=
      { name := fd.name, age := fd.age, gender := fd.gender,
        medications := fd.medications, symptoms := fd.symptoms }
    let stored := BlockchainGraph.storeOnBlockchain connectOk st result pinfo
    match stored.1 with
    | .error _ => (.error .analysisFailed, stored.2)
    | .ok _ =>
      let results := alModify id
        (fun r => { r with blockchainStatus := "Recorded" }) stored.2.results
      (.ok (), { stored.2 with results := results })

/-- The `try` block of the graph-aware `updateBlockchainRecord(id)`. -/
def updateBlockchainRecordTry (id : String) (ledgerNow localNow : String)
    (connectOk : Bool) (st : SysState) : Except JsError Unit × SysState :=
  match alGet id st.results with
  | none => (.error .recordNotFound, st)
  | some r =>
    let upd := BlockchainGraph.updateOnBlockchain connectOk st id r ledgerNow
    match upd.1 with
    | .error e => (.error e, upd.2)
    | .ok _ =>
      let results := alModify id
        (fun r => { r with lastUpdated := localNow, blockchainStatus := "Updated" })
        upd.2.results
      (.ok (), { upd.2 with results := results })

/-- The graph-aware `updateBlockchainRecord(id)` with its `catch`. -/
def updateBlockchainRecord (id : String) (ledgerNow localNow : String)
    (connectOk : Bool) (st : SysState) : Except JsError Unit × SysState :=
  let inner := updateBlockchainRecordTry id ledgerNow localNow connectOk st
  match inner.1 with
  | .ok _ => inner
  | .error _ => (.error .updateFailed, inner.2)

/-- Model of `searchPrescriptionByHash(hash)`: delegate to
`getPrescriptionFromHash`, catching any error into `null`. -/
def searchPrescriptionByHash (connectOk : Bool) (st : SysState) (h : String) :
    Except JsError (Option PrescriptionResult) × SysState :=
  let r := BlockchainGraph.getPrescriptionFromHash connectOk st h
  match r.1 with
  | .ok v => (.ok v, r.2)
  | .error _ => (.ok none, r.2)

/-- Model of `getPatientHistory(patientInfo)`: delegate to
`getPatientPrescriptionHistory`; the surrounding `catch` returns `[]` on
any failure (the delegate is total in this model, so the catch branch is
dead). -/
def getPatientHistory (st : SysState) (pinfo : PatientInfo) :
    Except JsError (List PrescriptionResult) × SysState :=
  (.ok (Neo4j.getPatientPrescriptionHistory st pinfo), st)

end ActionsGraph

namespace Ai

/-- The backtick character, the building block of code-fence markers. -/
def bq : Char := Char.ofNat 96

/-- Model of the replace of the code-fence regex by the empty string: scan left to right; at a
run of three backticks consume also an immediately following `json`,
otherwise consume just the three backticks; keep every other character.
(When fewer than four characters follow the three backticks, only the
plain-fence alternative of the regex can match, as in the source.) -/
def stripFences : List Char → List Char
  | c1 :: c2 :: c3 :: j :: s :: o :: n :: rest =>
    if c1 = bq && c2 = bq && c3 = bq then
      if j = 'j' && s = 's' && o = 'o' && n = 'n' then stripFences rest
      else stripFences (j :: s :: o :: n :: rest)
    else c1 :: stripFences (c2 :: c3 :: j :: s :: o :: n :: rest)
  | c1 :: c2 :: c3 :: rest =>
    if c1 = bq && c2 = bq && c3 = bq then stripFences rest
    else c1 :: stripFences (c2 :: c3 :: rest)
  | c :: rest => c :: stripFences rest
  | [] => []

/-- Is a code-fence marker (three consecutive backticks) sitting at the
head of the text? -/
def fenceAtHead (l : List Char) : Bool :=
  match l with
  | a :: b :: c :: _ => a = bq && b = bq && c = bq
  | _ => false

/-- Does the text contain a code-fence marker anywhere? -/
def hasFence : List Char → Bool
  | [] => false
  | c :: t => fenceAtHead (c :: t) || hasFence t

/-- A payload wrapped in code-fence markup:
`"```json\n" + p + "\n```"`. -/
def wrapFence (p : List Char) : List Char :=
  bq :: bq :: bq :: 'j' :: 's' :: 'o' :: 'n' :: '\n' :: (p ++ ('\n' :: bq :: bq :: bq :: []))

/-- The post-processing pipeline applied to the raw model response text:
strip code-fence markers, `.trim()`, then hand the cleaned text to the
parse-and-validate step (`JSON.parse` followed by the zod schema),
represented by an arbitrary deterministic function `parse`. -/
def pipeline (parse : List Char → Except JsError AnalysisFull)
    (responseText : List Char) : Except JsError AnalysisFull :=
  parse (trimChars (stripFences responseText))

end Ai

section SpecExtraction

/-- The medication-name extraction as the specification words it: split on
commas and newlines, trim each piece, keep the leading alphabetic run as
the medication name, drop empty entries.  Stated for comparison with
`Neo4j.extractMedicationsFromPrescription`. -/
def extractMedicationsClaimedSpec (p : String) : List String :=
  (((splitCommaNl p.data).map (fun med =>
      (trimChars med).takeWhile Neo4j.isAsciiAlpha)).filter
    (fun med => med.length > 0)).map List.asString

/-- The extraction as the code actually behaves: split on commas and
newlines, trim each piece; when the trimmed piece starts with a letter or
whitespace keep its leading run of letters and whitespace re-trimmed,
otherwise keep the whole trimmed piece; drop empty entries.  Stated for
comparison with `Neo4j.extractMedicationsFromPrescription`. -/
def extractMedicationsAmendedSpec (p : String) : List String :=
  (((splitCommaNl p.data).map (fun med =>
      match trimChars med with
      | [] => []
      | c :: t =>
        if Neo4j.isAlphaSpace c then
          trimChars ((c :: t).takeWhile Neo4j.isAlphaSpace)
        else c :: t)).filter
    (fun med => med.length > 0)).map List.asString

end SpecExtraction

section Fixtures

/-- An empty property graph. -/
def graphEmpty : GraphDB :=
  { patients := [], prescriptions := [], received := [], includes := [],
    hasIssue := [], hasSuggestion := [], nextId := 0 }

/-- The pristine process state: empty stores, Neo4j not yet initialized. -/
def emptyState : SysState :=
  { results := [], chain := [], neo4jInitialized := false, connected := false,
    graph := graphEmpty, mockGraph := [] }

/-- A sample patient. -/
def bobInfo : PatientInfo :=
  { name := "Bob", age := "40", gender := "male" }

/-- A patient distinct from `bobInfo`. -/
def aliceInfo : PatientInfo :=
  { name := "Alice", age := "30", gender := "female" }

/-- A sample stored result, belonging to Bob. -/
def bobRecord : PrescriptionResult :=
  { id := "rx-100-b0b", originalPrescription := "Aspirin 100mg",
    status := .valid, issues := none, suggestions := none,
    dataSources := ⟨3, 1⟩, timestamp := "2024-05-01T10:00:00.000Z",
    blockchainStatus := "Recorded", lastUpdated := "2024-05-01T10:00:00.000Z" }

/-- A state in which the Neo4j connection attempt has failed (driver
`null`) and one earlier submission by Bob sits in the fallback store. -/
def fallbackStateWithBob : SysState :=
  { emptyState with
    neo4jInitialized := true,
    connected := false,
    mockGraph := [("0a1b2c3d", ⟨bobRecord, bobInfo⟩)] }

/-- A sample prescription node received by Alice, used to exercise the
connected-mode history query. -/
def aliceRx : RxNode :=
  { id := "rx-200-al1ce", blockchainHash := "11112222",
    originalPrescription := "Lisinopril 10mg", status := .warning,
    timestamp := "2024-06-01T09:00:00.000Z",
    lastUpdated := "2024-06-01T09:00:00.000Z" }

/-- The Patient node for Alice. -/
def aliceNode : PatientNode :=
  { name := "Alice", age := some 30, gender := "female" }

/-- A connected-mode graph holding exactly Alice's one prescription. -/
def aliceGraph : GraphDB :=
  { patients := [aliceNode], prescriptions := [aliceRx],
    received := [(aliceNode, aliceRx.id)], includes := [(aliceRx.id, "Lisinopril")],
    hasIssue := [], hasSuggestion := [], nextId := 0 }

/-- A sample validated AI analysis (plain variant). -/
def sampleAnalysis : Analysis :=
  { status := .valid, issues := [], suggestions := [], dataSources := ⟨2, 1⟩ }

/-- A sample validated AI analysis (graph-aware variant). -/
def sampleAnalysisFull : AnalysisFull :=
  { status := .valid, issues := [], suggestions := [], dataSources := ⟨2, 1⟩,
    imageAnalysis := none, historyReference := none }

/-- A sample form submission. -/
def sampleForm : FormData :=
  { name := "Bob", age := "40", gender := "male", medications := "none",
    symptoms := "cough", prescription := "Metformin 500mg" }

/-- A sample ledger record present on the chain, for exercising the
present-id branch of the ledger operations. -/
def sampleLedgerRecord : LedgerRecord :=
  { id := "rx-100-b0b", timestamp := "2024-05-01T10:00:00.000Z",
    status := .valid, hash := "0a1b2c3d", data := ⟨.valid, 0, 0⟩ }

/-- A state whose ledger holds `sampleLedgerRecord` and nothing else. -/
def chainStateWithBob : SysState :=
  { emptyState with chain := [("rx-100-b0b", sampleLedgerRecord)] }

/-- A state in which Bob's result is in the local results store but the
ledger is empty — the configuration that makes the ledger update fail. -/
def localOnlyStateWithBob : SysState :=
  { emptyState with results := [("rx-100-b0b", bobRecord)] }

/-- A constant stand-in for the parse-and-validate step, used to
instantiate the fence-stripping theorem at a concrete pipeline. -/
def constParse : List Char → Except JsError AnalysisFull :=
  fun _ => .error .aiInvalid

end Fixtures

section StoreLemmas

variable {α : Type _}

theorem alGet_alSet (k : String) (v : α) (l : List (String × α)) :
    alGet k (alSet k v l) = some v := by
  unfold alSet
  by_cases hk : l.any (fun e => e.1 = k)
  · simp only [hk, if_true]
    induction l with
    | nil => simp at hk
    | cons e t ih =>
      by_cases he : e.1 = k
      · simp only [List.map_cons, he, if_pos]
        exact alGet_cons_of_eq k (k, v) _ rfl
      · simp only [List.map_cons, he, if_neg, not_false_iff]
        rw [alGet_cons_of_ne k e _ he]
        apply ih
        simpa [List.any_cons, he] using hk
  · simp only [hk, if_false]
    apply alGet_append_right
    rcases h : alGet k l with _ | v'
    · rfl
    · exfalso
      apply hk
      unfold alGet at h
      rcases hf : l.find? (fun e => e.1 = k) with _ | e
      · rw [hf] at h; simp at h
      · have := List.find?_some hf
        have hmem := List.mem_of_find?_eq_some hf
        rw [List.any_eq_true]
        exact ⟨e, hmem, this⟩

theorem alGet_alModify (k : String) (f : α → α) (l : List (String × α)) :
    alGet k (alModify k f l) = (alGet k l).map f := by
  induction l with
  | nil => rfl
  | cons e t ih =>
    by_cases he : e.1 = k
    · unfold alModify
      simp only [List.map_cons, he, if_pos]
      rw [alGet_cons_of_eq k (k, f e.2) _ rfl, alGet_cons_of_eq k e t he]
      rfl
    · unfold alModify
      simp only [List.map_cons, he, if_neg, not_false_iff]
      rw [alGet_cons_of_ne k e _ he, alGet_cons_of_ne k e t he]
      exact ih

theorem alModify_append_eq (k : String) (f : α → α) (l : List (String × α)) (v : α) :
    alModify k f (l ++ [(k, v)]) = alModify k f l ++ [(k, f v)] := by
  unfold alModify
  simp

end StoreLemmas

section EnsureInit

theorem ensureInit_results (connectOk : Bool) (st : SysState) :
    (BlockchainGraph.ensureNeo4jInitialized connectOk st).results = st.results := by
  unfold BlockchainGraph.ensureNeo4jInitialized
  split <;> rfl

theorem ensureInit_chain (connectOk : Bool) (st : SysState) :
    (BlockchainGraph.ensureNeo4jInitialized connectOk st).chain = st.chain := by
  unfold BlockchainGraph.ensureNeo4jInitialized
  split <;> rfl

theorem ensureInit_connected_false (st : SysState) (h : st.connected = false) :
    (BlockchainGraph.ensureNeo4jInitialized false st).connected = false := by
  unfold BlockchainGraph.ensureNeo4jInitialized
  split <;> simp [h]

end EnsureInit

/-- C2. For every id that is not a key of the orchestrator's results
store, `updateBlockchainRecord(id)` fails: the `try` body throws
`"Record not found"` without touching any state, and the surrounding
`catch` reports the failure to the caller (as the generic
`"Failed to update blockchain record"` error); there is no retry.  This
holds for both the plain and the graph-aware orchestrator variant. -/
theorem updateBlockchainRecord_unknown_id_fails
    (id t1 t2 : String) (connectOk : Bool) (st : SysState)
    (h : alGet id st.results = none) :
    Actions.updateBlockchainRecordTry id t1 t2 st = (.error .recordNotFound, st) ∧
    Actions.updateBlockchainRecord id t1 t2 st = (.error .updateFailed, st) ∧
    ActionsGraph.updateBlockchainRecordTry id t1 t2 connectOk st = (.error .recordNotFound, st) ∧
    ActionsGraph.updateBlockchainRecord id t1 t2 connectOk st = (.error .updateFailed, st) := by
  have htry : Actions.updateBlockchainRecordTry id t1 t2 st = (.error .recordNotFound, st) := by
    unfold Actions.updateBlockchainRecordTry
    rw [h]
  have htry' : ActionsGraph.updateBlockchainRecordTry id t1 t2 connectOk st =
      (.error .recordNotFound, st) := by
    unfold ActionsGraph.updateBlockchainRecordTry
    rw [h]
  refine ⟨htry, ?_, htry', ?_⟩
  · unfold Actions.updateBlockchainRecord
    rw [htry]
  · unfold ActionsGraph.updateBlockchainRecord
    rw [htry']

/-- Witness for C2 at a concrete input: the empty state has no record
under `"nope"`, and the update reports the failure. -/
theorem updateBlockchainRecord_unknown_id_fails_witness :
    alGet "nope" emptyState.results = none ∧
    Actions.updateBlockchainRecord "nope" "t1" "t2" emptyState =
      (.error .updateFailed, emptyState) :=
  ⟨rfl, (updateBlockchainRecord_unknown_id_fails "nope" "t1" "t2" true emptyState rfl).2.1⟩

/-- C6. The fingerprint function is deterministic: `generateHash` is a
function of the record's serialized text, so any two records with the same
canonical text form receive equal fingerprint strings. -/
theorem generateHash_deterministic (r₁ r₂ : PrescriptionResult)
    (h : serializeResult r₁ = serializeResult r₂) :
    generateHash r₁ = generateHash r₂ := by
  unfold generateHash
  rw [h]

/-- Witness for C6 at a concrete record. -/
theorem generateHash_deterministic_witness :
    serializeResult bobRecord = serializeResult bobRecord ∧
    generateHash bobRecord = generateHash bobRecord :=
  ⟨rfl, generateHash_deterministic bobRecord bobRecord rfl⟩

/-- C8. For every fingerprint that no record of the ledger store
carries, `getPrescriptionFromHash` resolves with `null` (the linear scan
finds nothing, so the graph is never consulted), and so does its caller
`searchPrescriptionByHash`; no error is raised. -/
theorem searchByHash_unknown_fingerprint_null
    (connectOk : Bool) (st : SysState) (h : String)
    (hnone : ∀ e ∈ st.chain, e.2.hash ≠ h) :
    (BlockchainGraph.getPrescriptionFromHash connectOk st h).1 = .ok none ∧
    (ActionsGraph.searchPrescriptionByHash connectOk st h).1 = .ok none := by
  have hfind :
      ((BlockchainGraph.ensureNeo4jInitialized connectOk st).chain.find?
        (fun e => e.2.hash = h)) = none := by
    rw [ensureInit_chain, List.find?_eq_none]
    intro e he
    simp [hnone e he]
  have hget : (BlockchainGraph.getPrescriptionFromHash connectOk st h).1 = .ok none := by
    unfold BlockchainGraph.getPrescriptionFromHash
    simp only [hfind]
  refine ⟨hget, ?_⟩
  unfold ActionsGraph.searchPrescriptionByHash
  unfold BlockchainGraph.getPrescriptionFromHash at hget ⊢
  simp only [hfind] at hget ⊢

/-- Witness for C8 at a concrete input: the empty ledger never produced
the fingerprint `"ffffffff"`. -/
theorem searchByHash_unknown_fingerprint_null_witness :
    (∀ e ∈ emptyState.chain, e.2.hash ≠ "ffffffff") ∧
    (ActionsGraph.searchPrescriptionByHash false emptyState "ffffffff").1 = .ok none :=
  ⟨by simp [emptyState],
   (searchByHash_unknown_fingerprint_null false emptyState "ffffffff"
      (by simp [emptyState])).2⟩

/-- C9. For every id absent from the ledger store,
`getBlockchainRecord(id)` and `updateOnBlockchain(id, data)` both reject
with `"Record not found on blockchain"` and leave the state unchanged; for
every id present, `updateOnBlockchain` succeeds and overwrites the stored
record's `status`, `hash` and `data` fields with values recomputed from
the supplied result (refreshing its `timestamp`, keeping its `id`). -/
theorem ledger_get_update_contract
    (st : SysState) (id : String) (r : PrescriptionResult) (nowIso : String) :
    (alGet id st.chain = none →
       Blockchain.getBlockchainRecord st id = (.error .ledgerNotFound, st) ∧
       Blockchain.updateOnBlockchain st id r nowIso = (.error .ledgerNotFound, st)) ∧
    (∀ rec, alGet id st.chain = some rec →
       (Blockchain.updateOnBlockchain st id r nowIso).1 = .ok () ∧
       alGet id (Blockchain.updateOnBlockchain st id r nowIso).2.chain =
         some { rec with
                timestamp := nowIso,
                status := r.status,
                hash := generateHash r,
                data := { status := r.status,
                          issuesCount := (r.issues.getD []).length,
                          suggestionsCount := (r.suggestions.getD []).length } }) := by
  constructor
  · intro h
    constructor
    · unfold Blockchain.getBlockchainRecord
      rw [h]
    · unfold Blockchain.updateOnBlockchain
      rw [h]
  · intro rec h
    unfold Blockchain.updateOnBlockchain
    rw [h]
    exact ⟨rfl, alGet_alSet id _ st.chain⟩

/-- Witness for C9: the absent id `"nope"` on the empty ledger, and the
present id of `sampleLedgerRecord` on a one-record ledger. -/
theorem ledger_get_update_contract_witness :
    (alGet "nope" emptyState.chain = none ∧
     Blockchain.getBlockchainRecord emptyState "nope" = (.error .ledgerNotFound, emptyState)) ∧
    (alGet "rx-100-b0b" chainStateWithBob.chain = some sampleLedgerRecord ∧
     (Blockchain.updateOnBlockchain chainStateWithBob "rx-100-b0b" bobRecord "t").1 = .ok ()) :=
  ⟨⟨rfl, ((ledger_get_update_contract emptyState "nope" bobRecord "t").1 rfl).1⟩,
   ⟨by decide,
    (((ledger_get_update_contract chainStateWithBob "rx-100-b0b" bobRecord "t").2
        sampleLedgerRecord (by decide))).1⟩⟩

/-- C10. `updateBlockchainRecord` mutates the local results store only
after the ledger update succeeds: when the id is present locally but
absent from the ledger, the call fails and the stored result — in
particular its `lastUpdated` and `blockchainStatus` fields — is left
untouched.  For the plain variant the whole state is returned unchanged;
the graph-aware variant additionally flips the lazy Neo4j initialization
flag, but its results store is likewise untouched. -/
theorem updateBlockchainRecord_atomic_on_ledger_failure
    (id t1 t2 : String) (connectOk : Bool) (st : SysState)
    (r : PrescriptionResult)
    (hlocal : alGet id st.results = some r) (hchain : alGet id st.chain = none) :
    Actions.updateBlockchainRecord id t1 t2 st = (.error .updateFailed, st) ∧
    (ActionsGraph.updateBlockchainRecord id t1 t2 connectOk st).1 = .error .updateFailed ∧
    (ActionsGraph.updateBlockchainRecord id t1 t2 connectOk st).2.results = st.results ∧
    alGet id (ActionsGraph.updateBlockchainRecord id t1 t2 connectOk st).2.results = some r := by
  have hupd : Blockchain.updateOnBlockchain st id r t1 = (.error .ledgerNotFound, st) := by
    unfold Blockchain.updateOnBlockchain
    rw [hchain]
  have htry : Actions.updateBlockchainRecordTry id t1 t2 st = (.error .ledgerNotFound, st) := by
    simp only [Actions.updateBlockchainRecordTry, hlocal, hupd]
  have hchain' : alGet id (BlockchainGraph.ensureNeo4jInitialized connectOk st).chain = none := by
    rw [ensureInit_chain]; exact hchain
  have hupd' : BlockchainGraph.updateOnBlockchain connectOk st id r t1 =
      (.error .ledgerNotFound, BlockchainGraph.ensureNeo4jInitialized connectOk st) := by
    simp only [BlockchainGraph.updateOnBlockchain, hchain']
  have htry' : ActionsGraph.updateBlockchainRecordTry id t1 t2 connectOk st =
      (.error .ledgerNotFound, BlockchainGraph.ensureNeo4jInitialized connectOk st) := by
    simp only [ActionsGraph.updateBlockchainRecordTry, hlocal, hupd']
  have hres : (ActionsGraph.updateBlockchainRecord id t1 t2 connectOk st) =
      (.error .updateFailed, BlockchainGraph.ensureNeo4jInitialized connectOk st) := by
    unfold ActionsGraph.updateBlockchainRecord
    rw [htry']
  refine ⟨?_, ?_, ?_, ?_⟩
  · unfold Actions.updateBlockchainRecord
    rw [htry]
  · rw [hres]
  · rw [hres]; exact ensureInit_results connectOk st
  · rw [hres]; rw [ensureInit_results]; exact hlocal

/-- Witness for C10: Bob's record is in the local store, the ledger is
empty, and the failed update leaves the state as it was. -/
theorem updateBlockchainRecord_atomic_on_ledger_failure_witness :
    (alGet "rx-100-b0b" localOnlyStateWithBob.results = some bobRecord ∧
     alGet "rx-100-b0b" localOnlyStateWithBob.chain = none) ∧
    Actions.updateBlockchainRecord "rx-100-b0b" "t1" "t2" localOnlyStateWithBob =
      (.error .updateFailed, localOnlyStateWithBob) :=
  ⟨⟨by decide, rfl⟩,
   (updateBlockchainRecord_atomic_on_ledger_failure "rx-100-b0b" "t1" "t2" true
      localOnlyStateWithBob bobRecord (by decide) rfl).1⟩

/-- C5 counterexample. The claim's description of the extraction
(keep the leading *alphabetic* run, drop empty entries) disagrees with the
code at the concrete input `"10mg"`: the piece does not start with a
letter, so the regex does not match and the code keeps the whole trimmed
piece, while the claimed rule would produce an empty name and drop it. -/
theorem extractMedications_spec_counterexample :
    Neo4j.extractMedicationsFromPrescription "10mg" = ["10mg"] ∧
    extractMedicationsClaimedSpec "10mg" = [] ∧
    Neo4j.extractMedicationsFromPrescription "10mg" ≠ extractMedicationsClaimedSpec "10mg" := by
  refine ⟨by decide, by decide, by decide⟩

/-- C5 amended. Medication-name extraction splits the text on commas
and newlines and trims each piece; when the trimmed piece starts with a
letter or whitespace it keeps the leading run of letters and whitespace,
re-trimmed, as the medication name, otherwise it keeps the whole trimmed
piece; empty entries are dropped.  On the input
`"Lisinopril 10mg, Metformin 500mg"` it returns exactly
`["Lisinopril", "Metformin"]`. -/
theorem extractMedications_amended :
    (∀ p : String,
       Neo4j.extractMedicationsFromPrescription p = extractMedicationsAmendedSpec p) ∧
    Neo4j.extractMedicationsFromPrescription "Lisinopril 10mg, Metformin 500mg" =
      ["Lisinopril", "Metformin"] := by
  constructor
  · intro p
    unfold Neo4j.extractMedicationsFromPrescription extractMedicationsAmendedSpec
    congr 1
    congr 1
    congr 1
    funext med
    cases htrim : trimChars med with
    | nil => simp
    | cons c t' =>
      by_cases hc : Neo4j.isAlphaSpace c
      · simp [List.takeWhile_cons, hc]
      · simp [List.takeWhile_cons, hc]
  · decide

/-- C4 counterexample. With the driver `null` after a failed
connection, `getPatientHistory` does *not* always return an empty
sequence: in a state whose fallback store holds one earlier record, the
call returns that record. -/
theorem getPatientHistory_unreachable_counterexample :
    fallbackStateWithBob.connected = false ∧
    (ActionsGraph.getPatientHistory fallbackStateWithBob bobInfo).1 = .ok [bobRecord] ∧
    [bobRecord] ≠ ([] : List PrescriptionResult) := by
  refine ⟨rfl, rfl, by decide⟩

/-- C4 amended. Whenever the graph database is unreachable (the driver
is `null` after a failed connection), `getPatientHistory` returns without
throwing — it yields the contents of the in-memory fallback store, which
is empty when nothing has been stored — and `analyzePrescription` still
completes successfully using only the local results store, the ledger stub
and the fallback store. -/
theorem getPatientHistory_unreachable_amended :
    (∀ (st : SysState) (pinfo : PatientInfo), st.connected = false →
       (ActionsGraph.getPatientHistory st pinfo).1 =
         .ok (st.mockGraph.map (fun e => e.2.result))) ∧
    (∀ (fd : FormData) (nowMs : Nat) (rand tsA tsB : String) (a : AnalysisFull)
       (st : SysState), st.connected = false →
       (ActionsGraph.analyzePrescription fd nowMs rand tsA tsB false (.ok a) st).1 =
         .ok ()) := by
  constructor
  · intro st pinfo h
    unfold ActionsGraph.getPatientHistory Neo4j.getPatientPrescriptionHistory
    simp [h]
  · intro fd nowMs rand tsA tsB a st _h
    simp only [ActionsGraph.analyzePrescription, BlockchainGraph.storeOnBlockchain]

/-- Witness for C4 (amended) at concrete inputs: the unreachable-driver
state with one fallback record, and a concrete successful submission. -/
theorem getPatientHistory_unreachable_amended_witness :
    (fallbackStateWithBob.connected = false ∧
     (ActionsGraph.getPatientHistory fallbackStateWithBob aliceInfo).1 =
       .ok (fallbackStateWithBob.mockGraph.map (fun e => e.2.result))) ∧
    (ActionsGraph.analyzePrescription sampleForm 1 "abc" "t" "t" false
        (.ok sampleAnalysisFull) fallbackStateWithBob).1 = .ok () :=
  ⟨⟨rfl, (getPatientHistory_unreachable_amended.1 fallbackStateWithBob aliceInfo rfl)⟩,
   getPatientHistory_unreachable_amended.2 sampleForm 1 "abc" "t" "t"
     sampleAnalysisFull fallbackStateWithBob rfl⟩

section IdLemmas

theorem digitChar_ne_dash : ∀ d : Nat, d < 10 → Nat.digitChar d ≠ '-' := by decide

theorem digitChar_inj_lt :
    ∀ a : Nat, a < 10 → ∀ b : Nat, b < 10 → Nat.digitChar a = Nat.digitChar b → a = b := by
  decide

theorem natDecimalChars_ne_dash (n : Nat) : ∀ c ∈ natDecimalChars n, c ≠ '-' := by
  intro c hc
  unfold natDecimalChars at hc
  split at hc
  · simp at hc
    subst hc
    decide
  · simp only [List.mem_reverse, List.mem_map] at hc
    obtain ⟨d, hd, rfl⟩ := hc
    exact digitChar_ne_dash d (Nat.digits_lt_base (by norm_num) hd)

theorem map_digitChar_inj :
    ∀ (l₁ l₂ : List Nat), (∀ d ∈ l₁, d < 10) → (∀ d ∈ l₂, d < 10) →
      l₁.map Nat.digitChar = l₂.map Nat.digitChar → l₁ = l₂ := by
  intro l₁
  induction l₁ with
  | nil =>
    intro l₂ _ _ h
    cases l₂ with
    | nil => rfl
    | cons b u => simp at h
  | cons a t ih =>
    intro l₂ h₁ h₂ h
    cases l₂ with
    | nil => simp at h
    | cons b u =>
      simp only [List.map_cons, List.cons.injEq] at h
      have hab : a = b :=
        digitChar_inj_lt a (h₁ a (by simp)) b (h₂ b (by simp)) h.1
      subst hab
      rw [ih u (fun d hd => h₁ d (by simp [hd])) (fun d hd => h₂ d (by simp [hd])) h.2]

theorem map_digitChar_digits_eq_single_zero (n : Nat)
    (h : (Nat.digits 10 n).map Nat.digitChar = ['0']) : n = 0 := by
  have h10 : (1 : Nat) < 10 := by norm_num
  rcases hd : Nat.digits 10 n with _ | ⟨d, ds⟩
  · rw [hd] at h; simp at h
  · rw [hd] at h
    simp only [List.map_cons, List.cons.injEq, List.map_eq_nil_iff] at h
    have hdlt : d < 10 := Nat.digits_lt_base h10 (by rw [hd]; simp)
    have hd0 : d = 0 := digitChar_inj_lt d hdlt 0 (by norm_num) (by simpa using h.1)
    have := Nat.ofDigits_digits 10 n
    rw [hd, h.2, hd0] at this
    simpa [Nat.ofDigits] using this.symm

theorem natDecimalChars_inj (m n : Nat) (h : natDecimalChars m = natDecimalChars n) :
    m = n := by
  unfold natDecimalChars at h
  by_cases hm : m = 0 <;> by_cases hn : n = 0
  · rw [hm, hn]
  · rw [if_pos hm, if_neg hn] at h
    exact absurd (map_digitChar_digits_eq_single_zero n
      (by rw [← List.reverse_reverse ((Nat.digits 10 n).map Nat.digitChar), ← h]; rfl)) hn
  · rw [if_neg hm, if_pos hn] at h
    exact absurd (map_digitChar_digits_eq_single_zero m
      (by rw [← List.reverse_reverse ((Nat.digits 10 m).map Nat.digitChar), h]; rfl)) hm
  · rw [if_neg hm, if_neg hn] at h
    have hrev := congrArg List.reverse h
    simp only [List.reverse_reverse] at hrev
    have hdig := map_digitChar_inj (Nat.digits 10 m) (Nat.digits 10 n)
      (fun d hd => Nat.digits_lt_base (by norm_num) hd)
      (fun d hd => Nat.digits_lt_base (by norm_num) hd) hrev
    rw [← Nat.ofDigits_digits 10 m, ← Nat.ofDigits_digits 10 n, hdig]

theorem append_dash_inj :
    ∀ (l₁ l₂ r₁ r₂ : List Char), (∀ c ∈ l₁, c ≠ '-') → (∀ c ∈ l₂, c ≠ '-') →
      l₁ ++ '-' :: r₁ = l₂ ++ '-' :: r₂ → l₁ = l₂ ∧ r₁ = r₂ := by
  intro l₁
  induction l₁ with
  | nil =>
    intro l₂ r₁ r₂ _ h₂ h
    cases l₂ with
    | nil => simpa using h
    | cons b u =>
      simp only [List.nil_append, List.cons_append, List.cons.injEq] at h
      exact absurd h.1.symm (h₂ b (by simp))
  | cons a t ih =>
    intro l₂ r₁ r₂ h₁ h₂ h
    cases l₂ with
    | nil =>
      simp only [List.nil_append, List.cons_append, List.cons.injEq] at h
      exact absurd h.1 (h₁ a (by simp))
    | cons b u =>
      simp only [List.cons_append, List.cons.injEq] at h
      obtain ⟨rfl, h'⟩ := h
      have hrec := ih u r₁ r₂ (fun c hc => h₁ c (by simp [hc]))
        (fun c hc => h₂ c (by simp [hc])) h'
      exact ⟨by rw [hrec.1], hrec.2⟩

theorem analysisId_inj (n₁ n₂ : Nat) (r₁ r₂ : String)
    (h : analysisId n₁ r₁ = analysisId n₂ r₂) : n₁ = n₂ ∧ r₁ = r₂ := by
  have hd : (analysisId n₁ r₁).data = (analysisId n₂ r₂).data := by rw [h]
  unfold analysisId at hd
  have e1 : ("rx-" : String).data = ['r', 'x', '-'] := rfl
  have e2 : ("-" : String).data = ['-'] := rfl
  have e3 : ∀ l : List Char, l.asString.data = l := fun l => rfl
  simp only [String.data_append, e1, e2, e3, List.append_assoc, List.cons_append,
    List.nil_append, List.cons.injEq, true_and] at hd
  obtain ⟨hnum, hrand⟩ := append_dash_inj (natDecimalChars n₁) (natDecimalChars n₂)
    r₁.data r₂.data (natDecimalChars_ne_dash n₁) (natDecimalChars_ne_dash n₂) hd
  exact ⟨natDecimalChars_inj n₁ n₂ hnum, String.ext hrand⟩

end IdLemmas

section SubmitLemmas

/-- The result record assembled by a successful submission, before the
ledger write flips its status. -/
def mkSubmittedResult (fd : FormData) (nowMs : Nat) (rand tsA tsB : String)
    (a : Analysis) : PrescriptionResult :=
  { id := analysisId nowMs rand, originalPrescription := fd.prescription,
    status := a.status, issues := some a.issues, suggestions := some a.suggestions,
    dataSources := a.dataSources, timestamp := tsA,
    blockchainStatus := "Pending", lastUpdated := tsB }

theorem analyzePrescription_ok_state (fd : FormData) (nowMs : Nat)
    (rand tsA tsB : String) (a : Analysis) (st : SysState) :
    Actions.analyzePrescription fd nowMs rand tsA tsB (.ok a) st =
      (.ok (), { st with
        results := alModify (analysisId nowMs rand)
          (fun r => { r with blockchainStatus := "Recorded" })
          (alSet (analysisId nowMs rand) (mkSubmittedResult fd nowMs rand tsA tsB a)
            st.results),
        chain := alSet (analysisId nowMs rand)
          (Blockchain.mkLedgerRecord (mkSubmittedResult fd nowMs rand tsA tsB a))
          st.chain }) :=
  rfl

end SubmitLemmas

/-- C1. A successful `analyzePrescription` (submit) followed by
`getPrescriptionResults` (latest) returns a record whose
`originalPrescription` equals the submitted `formData.prescription` text
(the freshness hypothesis states that the generated id is not already a
key of the results store, which is what id generation entropy provides);
and any two submissions generating their ids from distinct
(clock, random-suffix) pairs receive distinct ids. -/
theorem submit_then_latest_and_unique_ids :
    (∀ (fd : FormData) (nowMs : Nat) (rand tsA tsB t1 t2 : String) (a : Analysis)
       (st : SysState),
       alGet (analysisId nowMs rand) st.results = none →
       (Actions.analyzePrescription fd nowMs rand tsA tsB (.ok a) st).1 = .ok () ∧
       (Actions.getPrescriptionResults t1 t2
          (Actions.analyzePrescription fd nowMs rand tsA tsB (.ok a) st).2).originalPrescription
         = fd.prescription) ∧
    (∀ (n₁ n₂ : Nat) (r₁ r₂ : String), (n₁, r₁) ≠ (n₂, r₂) →
       analysisId n₁ r₁ ≠ analysisId n₂ r₂) := by
  constructor
  · intro fd nowMs rand tsA tsB t1 t2 a st hfresh
    rw [analyzePrescription_ok_state]
    refine ⟨rfl, ?_⟩
    rw [alSet_of_not_mem _ _ _ hfresh, alModify_append_eq]
    unfold Actions.getPrescriptionResults
    simp only [List.map_append, List.map_cons, List.map_nil, List.getLast?_concat]
    have hmod : alGet (analysisId nowMs rand)
        (alModify (analysisId nowMs rand)
          (fun r => { r with blockchainStatus := "Recorded" }) st.results) = none := by
      rw [alGet_alModify, hfresh]
      rfl
    rw [alGet_append_right _ _ _ hmod]
    rfl
  · intro n₁ n₂ r₁ r₂ hne heq
    obtain ⟨hn, hr⟩ := analysisId_inj n₁ n₂ r₁ r₂ heq
    exact hne (by rw [hn, hr])

/-- Witness for C1 at concrete inputs: a submission into the empty state
(whose store has no key at all, so the generated id is fresh), and two
distinct (clock, suffix) pairs. -/
theorem submit_then_latest_and_unique_ids_witness :
    (alGet (analysisId 1736600000000 "abc1234") emptyState.results = none ∧
     (Actions.getPrescriptionResults "t1" "t2"
        (Actions.analyzePrescription sampleForm 1736600000000 "abc1234" "ts" "ts"
          (.ok sampleAnalysis) emptyState).2).originalPrescription
       = sampleForm.prescription) ∧
    ((1736600000000, "abc1234") ≠ ((1736600000001 : Nat), "abc1234") ∧
     analysisId 1736600000000 "abc1234" ≠ analysisId 1736600000001 "abc1234") :=
  ⟨⟨rfl,
    (submit_then_latest_and_unique_ids.1 sampleForm 1736600000000 "abc1234" "ts" "ts"
      "t1" "t2" sampleAnalysis emptyState rfl).2⟩,
   ⟨by decide,
    submit_then_latest_and_unique_ids.2 1736600000000 1736600000001 "abc1234" "abc1234"
      (by decide)⟩⟩

/-- C3 counterexample. In the in-memory fallback state, the history
query does not restrict to the requested patient: asking for Alice's
history in a state whose fallback store holds only Bob's prescription
returns Bob's record. -/
theorem history_exact_patient_counterexample :
    Neo4j.getPatientPrescriptionHistory fallbackStateWithBob aliceInfo = [bobRecord] ∧
    (∀ e ∈ fallbackStateWithBob.mockGraph, e.2.patientInfo.name ≠ aliceInfo.name) := by
  refine ⟨rfl, by decide⟩

/-- C3 amended. In connected mode, `getPatientPrescriptionHistory`
returns exactly the prescriptions `RECEIVED` by patients with the
requested name — every returned row comes from such a `RECEIVED` edge, and
every matching prescription appears — ordered most recent first by
timestamp, with issues, suggestions and medications aggregated per
prescription.  In the in-memory fallback, it instead returns all stored
results regardless of patient. -/
theorem history_exact_patient_amended :
    (∀ (g : GraphDB) (name : String),
       (∀ r ∈ Neo4j.historyQuery g name,
          ∃ e ∈ g.received, e.1.name = name ∧ e.2 = r.id) ∧
       (∀ rx ∈ g.prescriptions, Neo4j.rxMatches g name rx = true →
          rx.id ∈ (Neo4j.historyQuery g name).map (fun r => r.id)) ∧
       (Neo4j.historyQuery g name).Pairwise
         (fun a b => b.timestamp ≤ a.timestamp)) ∧
    (∀ (st : SysState) (pinfo : PatientInfo), st.connected = false →
       Neo4j.getPatientPrescriptionHistory st pinfo =
         st.mockGraph.map (fun e => e.2.result)) := by
  constructor
  · intro g name
    refine ⟨?_, ?_, ?_⟩
    · intro r hr
      unfold Neo4j.historyQuery at hr
      rw [List.mem_map] at hr
      obtain ⟨rx, hrx, rfl⟩ := hr
      rw [List.mem_mergeSort, List.mem_filter] at hrx
      have hmatch := hrx.2
      unfold Neo4j.rxMatches at hmatch
      rw [List.any_eq_true] at hmatch
      obtain ⟨e, he, hprop⟩ := hmatch
      simp only [Bool.and_eq_true, decide_eq_true_eq] at hprop
      exact ⟨e, he, hprop.1, hprop.2⟩
    · intro rx hrx hmatch
      have hmem : rx ∈ (g.prescriptions.filter (Neo4j.rxMatches g name)).mergeSort
          Neo4j.tsDesc := by
        rw [List.mem_mergeSort, List.mem_filter]
        exact ⟨hrx, hmatch⟩
      exact List.mem_map.mpr ⟨Neo4j.rxToResult g rx, List.mem_map_of_mem _ hmem, rfl⟩
    · unfold Neo4j.historyQuery
      have htrans : ∀ a b c : RxNode,
          Neo4j.tsDesc a b → Neo4j.tsDesc b c → Neo4j.tsDesc a c := by
        intro a b c hab hbc
        simp only [Neo4j.tsDesc, decide_eq_true_eq] at hab hbc ⊢
        exact le_trans hbc hab
      have htotal : ∀ a b : RxNode, Neo4j.tsDesc a b || Neo4j.tsDesc b a := by
        intro a b
        simp only [Neo4j.tsDesc, Bool.or_eq_true, decide_eq_true_eq]
        exact le_total b.timestamp a.timestamp
      have hs := List.sorted_mergeSort htrans htotal
        (g.prescriptions.filter (Neo4j.rxMatches g name))
      refine hs.map (Neo4j.rxToResult g) ?_
      intro a b hab
      simp only [Neo4j.tsDesc, decide_eq_true_eq] at hab
      exact hab
  · intro st pinfo h
    unfold Neo4j.getPatientPrescriptionHistory
    simp [h]

/-- Witness for C3 (amended) at concrete inputs: Alice's one prescription
in a connected-mode graph appears in her history, and the fallback branch
returns the stored results. -/
theorem history_exact_patient_amended_witness :
    (aliceRx ∈ aliceGraph.prescriptions ∧
     Neo4j.rxMatches aliceGraph "Alice" aliceRx = true ∧
     aliceRx.id ∈ (Neo4j.historyQuery aliceGraph "Alice").map (fun r => r.id)) ∧
    (fallbackStateWithBob.connected = false ∧
     Neo4j.getPatientPrescriptionHistory fallbackStateWithBob bobInfo =
       fallbackStateWithBob.mockGraph.map (fun e => e.2.result)) :=
  ⟨⟨by decide, by decide,
    (history_exact_patient_amended.1 aliceGraph "Alice").2.1 aliceRx (by decide) (by decide)⟩,
   ⟨rfl, history_exact_patient_amended.2 fallbackStateWithBob bobInfo rfl⟩⟩

section FenceLemmas

theorem stripFences_cons_step (c : Char) (t : List Char)
    (h : Ai.fenceAtHead (c :: t) = false) :
    Ai.stripFences (c :: t) = c :: Ai.stripFences t := by
  unfold Ai.fenceAtHead at h
  cases t with
  | nil => simp [Ai.stripFences]
  | cons t1 t' =>
    cases t' with
    | nil => simp [Ai.stripFences]
    | cons t2 t'' =>
      simp only [Bool.and_eq_true, decide_eq_true_eq] at h
      cases t'' with
      | nil => simp [Ai.stripFences, h]
      | cons a1 u1 =>
        cases u1 with
        | nil => simp [Ai.stripFences, h]
        | cons a2 u2 =>
          cases u2 with
          | nil => simp [Ai.stripFences, h]
          | cons a3 u3 =>
            cases u3 with
            | nil => simp [Ai.stripFences, h]
            | cons a4 u4 => simp [Ai.stripFences, h]

theorem fenceAtHead_cons_ne (a : Char) (ha : ¬ a = Ai.bq) (l : List Char) :
    Ai.fenceAtHead (a :: l) = false := by
  unfold Ai.fenceAtHead
  cases l with
  | nil => rfl
  | cons b l' =>
    cases l' with
    | nil => rfl
    | cons c l'' => simp [ha]

theorem hasFence_cons_false (c : Char) (t : List Char)
    (h : Ai.hasFence (c :: t) = false) :
    Ai.fenceAtHead (c :: t) = false ∧ Ai.hasFence t = false := by
  unfold Ai.hasFence at h
  simpa [Bool.or_eq_false_iff] using h

theorem stripFences_of_noFence (l : List Char) (h : Ai.hasFence l = false) :
    Ai.stripFences l = l := by
  induction l with
  | nil => simp [Ai.stripFences]
  | cons c t ih =>
    obtain ⟨h1, h2⟩ := hasFence_cons_false c t h
    rw [stripFences_cons_step c t h1, ih h2]

theorem stripFences_append_close (l : List Char) (h : Ai.hasFence l = false) :
    Ai.stripFences (l ++ ('\n' :: Ai.bq :: Ai.bq :: Ai.bq :: [])) = l ++ ['\n'] := by
  induction l with
  | nil => simp [Ai.stripFences, Ai.bq]
  | cons c t ih =>
    obtain ⟨h1, h2⟩ := hasFence_cons_false c t h
    have hstep : Ai.fenceAtHead (c :: (t ++ ('\n' :: Ai.bq :: Ai.bq :: Ai.bq :: []))) = false := by
      cases t with
      | nil => simp [Ai.fenceAtHead, Ai.bq]
      | cons d t' =>
        cases t' with
        | nil => simp [Ai.fenceAtHead, Ai.bq]
        | cons e t'' => simpa [Ai.fenceAtHead] using h1
    rw [List.cons_append, stripFences_cons_step c _ hstep, ih h2, List.cons_append]

theorem trim_wrap_chars (p : List Char) :
    trimChars ('\n' :: (p ++ ['\n'])) = trimChars p := by
  unfold trimChars trimLeftChars trimRightChars
  rw [List.dropWhile_cons_of_pos (by decide), List.dropWhile_append]
  split
  case isTrue hemp =>
    rw [List.isEmpty_iff] at hemp
    rw [hemp]
    simp [isWs]
  case isFalse hemp =>
    rw [List.reverse_append]
    simp [List.dropWhile_cons_of_pos, isWs]

theorem strip_wrap (p : List Char) (hp : Ai.hasFence p = false) :
    Ai.stripFences (Ai.wrapFence p) = '\n' :: (p ++ ['\n']) := by
  unfold Ai.wrapFence
  have hfirst : Ai.stripFences (Ai.bq :: Ai.bq :: Ai.bq :: 'j' :: 's' :: 'o' :: 'n' ::
       '\n' :: (p ++ ('\n' :: Ai.bq :: Ai.bq :: Ai.bq :: []))) =
      Ai.stripFences ('\n' :: (p ++ ('\n' :: Ai.bq :: Ai.bq :: Ai.bq :: []))) := by
    simp [Ai.stripFences]
  rw [hfirst, stripFences_cons_step _ _ (fenceAtHead_cons_ne '\n' (by decide) _),
    stripFences_append_close p hp]

end FenceLemmas

/-- C7. For every model-response payload that itself contains no
code-fence marker, the post-processing pipeline (strip code fences, trim,
then parse and validate) applied to the payload wrapped in
`"```json\n" ... "\n```"` markup yields the same parsed result as applied
to the bare payload — for any deterministic parse-and-validate step. -/
theorem fence_wrap_equiv (p : List Char) (hp : Ai.hasFence p = false)
    (parse : List Char → Except JsError AnalysisFull) :
    Ai.pipeline parse (Ai.wrapFence p) = Ai.pipeline parse p := by
  unfold Ai.pipeline
  rw [strip_wrap p hp, stripFences_of_noFence p hp, trim_wrap_chars]

/-- Witness for C7 at a concrete fence-free payload and a concrete
parse step. -/
theorem fence_wrap_equiv_witness :
    Ai.hasFence "hello".data = false ∧
    Ai.pipeline constParse (Ai.wrapFence "hello".data) =
      Ai.pipeline constParse "hello".data :=
  ⟨by decide, fence_wrap_equiv "hello".data (by decide) constParse⟩
